import Mathlib

/-!
Verification of the hectoday/http request-dispatch pipeline.

The definitions below are a shallow embedding of the TypeScript sources
`packages/http/src/internal/validation.ts` (parseQuery, parseBody,
validateInputs, group, setupHttp) and `packages/http/src/router.ts`
(createRouter: match and handle).  JavaScript runtime values are modelled
by the inductive type `Val`; records with string keys are modelled as
association lists looked up by first match; thrown exceptions are modelled
with `Except`; `async` computations are collapsed to their resolved value.
-/

namespace Hecto

/-- A JavaScript runtime value (the TS type `unknown`).  `undef` is the
JavaScript value `undefined`, which also stands for an absent optional
field. -/
inductive Val where
  | undef
  | null
  | bool (b : Bool)
  | num (n : Int)
  | str (s : String)
  | arr (elems : List Val)
  | obj (fields : List (String × Val))

/-- The three validated request parts (TS `ValidationPart`). -/
inductive ValidationPart where
  | params
  | query
  | body
deriving DecidableEq

/-- TS `ValidationIssue`: part, property path, message, optional code. -/
structure ValidationIssue where
  part : ValidationPart
  path : List String
  message : String
  code : Option String
deriving DecidableEq

/-- A JavaScript SyntaxError, as produced by JSON.parse failure; only its
message is observable in this development. -/
structure SynErr where
  message : String
deriving DecidableEq

/-- A thrown JavaScript value: a SyntaxError, a plain Error with a message,
or any other value. -/
inductive JsErr where
  | synErr (message : String)
  | genErr (message : String)
  | other (v : Val)

/-- Result of the validator adapter (TS `ValidateResult`): success with a
value, or failure with issues and an optional opaque raw error. -/
inductive ValidateResult where
  | ok (value : Val)
  | err (issues : List ValidationIssue) (error : Option Val)

/-- TS `Validator` adapter: validate(schema, input, part). -/
def Validator (S : Type) := S → Val → ValidationPart → ValidateResult

/-- TS `RequestSchemas`: optional schema per part. -/
structure RequestSchemas (S : Type) where
  params : Option S
  query : Option S
  body : Option S

/-- An entry of the per-part raw error map: either the raw validator error
(TS `result.error`, an opaque value) or the body JSON parse SyntaxError. -/
inductive OpaqueErr where
  | fromValidator (e : Val)
  | fromParse (e : SynErr)

/-- The per-part raw error record built by validateInputs (TS
`Partial<Record<ValidationPart, unknown>>`); a `none` field is an absent
key. -/
structure ErrMap where
  params : Option OpaqueErr
  query : Option OpaqueErr
  body : Option OpaqueErr

/-- The empty error record `{}`. -/
def ErrMap.empty : ErrMap := ⟨none, none, none⟩

/-- Whether the error record has no keys (TS `Object.keys(errors).length`
is zero). -/
def ErrMap.isEmpty (m : ErrMap) : Bool :=
  m.params.isNone && m.query.isNone && m.body.isNone

/-- The `received` record of an `InputErr`: raw values echoed per part. -/
structure Received where
  params : Val
  query : Val
  body : Val

/-- TS `InputState`: tagged union of `InputOk` (validated values) and
`InputErr` (failed parts, issues, received raw values, optional raw
errors). -/
inductive InputState where
  | ok (params query body : Val)
  | err (failed : List ValidationPart) (issues : List ValidationIssue)
      (received : Received) (errors : Option ErrMap)

/-- Raw extracted values handed to validateInputs (TS parameter `raw`);
`body` is `Val.undef` when the body was not read. -/
structure Raw where
  params : Val
  query : Val
  body : Val

/-- The exact message of the Error thrown when schemas are declared but no
validator adapter was configured. -/
def validatorRequiredMsg : String :=
  "Validator is required when route defines request schemas. Please provide a validator in setupHttp() configuration."

/-- Mutable accumulator of the validateInputs body (failed, issues, errors,
validatedParams, validatedQuery, validatedBody). -/
structure VAcc where
  failed : List ValidationPart
  issues : List ValidationIssue
  errors : ErrMap
  validatedParams : Val
  validatedQuery : Val
  validatedBody : Val

/-- The initial accumulator of validateInputs: nothing failed, no issues,
no raw errors, validated values initialized to the raw values. -/
def initAcc (raw : Raw) : VAcc :=
  ⟨[], [], ErrMap.empty, raw.params, raw.query, raw.body⟩

/-- The `Validate params` block of validateInputs. -/
def stepParams {S : Type} (v : Validator S) (s : RequestSchemas S)
    (raw : Raw) (a : VAcc) : VAcc :=
  match s.params with
  | none => a
  | some sch =>
    match v sch raw.params .params with
    | .ok value => { a with validatedParams := value }
    | .err issues error =>
      { a with
        failed := a.failed ++ [.params]
        issues := a.issues ++ issues
        errors := { a.errors with params := error.map .fromValidator } }

/-- The `Validate query` block of validateInputs. -/
def stepQuery {S : Type} (v : Validator S) (s : RequestSchemas S)
    (raw : Raw) (a : VAcc) : VAcc :=
  match s.query with
  | none => a
  | some sch =>
    match v sch raw.query .query with
    | .ok value => { a with validatedQuery := value }
    | .err issues error =>
      { a with
        failed := a.failed ++ [.query]
        issues := a.issues ++ issues
        errors := { a.errors with query := error.map .fromValidator } }

/-- The `Validate body` block of validateInputs: a pending JSON parse error
yields the synthesized Invalid JSON issue without invoking the validator. -/
def stepBody {S : Type} (v : Validator S) (s : RequestSchemas S)
    (raw : Raw) (bodyParseError : Option SynErr) (a : VAcc) : VAcc :=
  match s.body with
  | none => a
  | some sch =>
    match bodyParseError with
    | some e =>
      { a with
        failed := a.failed ++ [.body]
        issues := a.issues ++ [⟨.body, [], "Invalid JSON", none⟩]
        errors := { a.errors with body := some (.fromParse e) } }
    | none =>
      match v sch raw.body .body with
      | .ok value => { a with validatedBody := value }
      | .err issues error =>
        { a with
          failed := a.failed ++ [.body]
          issues := a.issues ++ issues
          errors := { a.errors with body := error.map .fromValidator } }

/-- TS `validateInputs` (internal/validation.ts): validates the declared
parts in order params, query, body, accumulating failures; throws (models
the `throw new Error`) when schemas are declared without a validator. -/
def validateInputs {S : Type} (validator : Option (Validator S))
    (schemas : Option (RequestSchemas S)) (raw : Raw)
    (bodyParseError : Option SynErr) : Except JsErr InputState :=
  match schemas with
  | none => .ok (.ok raw.params raw.query raw.body)
  | some s =>
    match validator with
    | none => .error (.genErr validatorRequiredMsg)
    | some v =>
      let a3 : VAcc :=
        stepBody v s raw bodyParseError (stepQuery v s raw (stepParams v s raw (initAcc raw)))
      if a3.failed.length > 0 then
        .ok (.err a3.failed a3.issues ⟨raw.params, raw.query, raw.body⟩
          (if a3.errors.isEmpty then none else some a3.errors))
      else
        .ok (.ok a3.validatedParams a3.validatedQuery a3.validatedBody)

/-- Outcome of evaluating a single declared part independently. -/
inductive PartOutcome where
  | pass (value : Val)
  | fail (issues : List ValidationIssue) (error : Option OpaqueErr)

/-- Spec-side formulation (C1 wording): each part is evaluated
independently of the others.  An unschemaed part passes with its raw
value; a schemaed body with a pending parse error fails with exactly the
synthesized Invalid JSON issue; otherwise the validator adapter decides. -/
def specPartEval {S : Type} (v : Validator S) (s : RequestSchemas S)
    (raw : Raw) (bodyParseError : Option SynErr) :
    ValidationPart → PartOutcome
  | .params =>
    match s.params with
    | none => .pass raw.params
    | some sch =>
      match v sch raw.params .params with
      | .ok value => .pass value
      | .err issues error => .fail issues (error.map .fromValidator)
  | .query =>
    match s.query with
    | none => .pass raw.query
    | some sch =>
      match v sch raw.query .query with
      | .ok value => .pass value
      | .err issues error => .fail issues (error.map .fromValidator)
  | .body =>
    match s.body with
    | none => .pass raw.body
    | some sch =>
      match bodyParseError with
      | some e => .fail [⟨.body, [], "Invalid JSON", none⟩] (some (.fromParse e))
      | none =>
        match v sch raw.body .body with
        | .ok value => .pass value
        | .err issues error => .fail issues (error.map .fromValidator)

/-- Whether a part outcome is a failure. -/
def PartOutcome.isFail : PartOutcome → Bool
  | .pass _ => false
  | .fail _ _ => true

/-- The issues contributed by a part outcome. -/
def PartOutcome.issuesOf : PartOutcome → List ValidationIssue
  | .pass _ => []
  | .fail issues _ => issues

/-- The value carried by a passing part outcome (`Val.undef` otherwise). -/
def PartOutcome.valueOf : PartOutcome → Val
  | .pass v => v
  | .fail _ _ => (.undef : Val)

/-- The raw error recorded by a failing part outcome. -/
def PartOutcome.errOf : PartOutcome → Option OpaqueErr
  | .pass _ => none
  | .fail _ e => e

/-- The fixed evaluation order of the parts. -/
def partsOrder : List ValidationPart := [.params, .query, .body]

/-- Spec-side formulation (C1 wording) of the whole validation gate: the
declared parts are evaluated independently, the failed parts are collected
in evaluation order, issues are concatenated in the same order, received
echoes the raw values unconditionally, and on total success every part
carries its validated (or raw) value. -/
def specValidate {S : Type} (v : Validator S) (s : RequestSchemas S)
    (raw : Raw) (bodyParseError : Option SynErr) : InputState :=
  let out := specPartEval v s raw bodyParseError
  let failed := partsOrder.filter (fun p => (out p).isFail)
  if failed.isEmpty then
    .ok (out .params).valueOf (out .query).valueOf (out .body).valueOf
  else
    let issues := (out .params).issuesOf ++ (out .query).issuesOf ++ (out .body).issuesOf
    let em : ErrMap := ⟨(out .params).errOf, (out .query).errOf, (out .body).errOf⟩
    .err failed issues ⟨raw.params, raw.query, raw.body⟩
      (if em.isEmpty then none else some em)

/-- Request-scoped locals: a JavaScript object with string keys, modelled
as an association list looked up by first match. -/
abbrev Locals := List (String × Val)

/-- Object property lookup (first matching key). -/
def Locals.get : Locals → String → Option Val
  | [], _ => none
  | p :: rest, k => if p.1 = k then some p.2 else Locals.get rest k

/-- JavaScript object spread update: the keys of the patch win on
conflict.  The representation places the patch entries first, which gives
exactly the lookup semantics of the spread (key order, which no claim
observes, is not tracked). -/
def Locals.merge (a b : Locals) : Locals :=
  b ++ a.filter (fun p => (b.find? (fun q => q.1 = p.1)).isNone)

/-- A query string value: a scalar for a single occurrence of the key, an
ordered list for repeated occurrences. -/
inductive QVal where
  | one (s : String)
  | many (ss : List String)

/-- One iteration of the parseQuery loop: record the pair (k, v) into the
accumulated record, turning a repeated key into an ordered list. -/
def insertQueryPair (m : List (String × QVal)) (k v : String) :
    List (String × QVal) :=
  match m with
  | [] => [(k, .one v)]
  | (k2, x) :: rest =>
    if k2 = k then
      match x with
      | .one s => (k, .many [s, v]) :: rest
      | .many ss => (k, .many (ss ++ [v])) :: rest
    else (k2, x) :: insertQueryPair rest k v

/-- TS `parseQuery`: fold the query pairs in order into a record whose
repeated keys become ordered lists. -/
def parseQuery (pairs : List (String × String)) : List (String × QVal) :=
  pairs.foldl (fun m kv => insertQueryPair m kv.1 kv.2) []

/-- A URL, already parsed into its path segments (the pathname split on
the slash character) and its query pairs in order. -/
structure Url where
  pathSegs : List String
  queryPairs : List (String × String)

/-- The body stream of a request: absent (`request.body` is null), a
stream whose full text reads successfully, or a stream whose read throws. -/
inductive BodyStream where
  | noBody
  | text (s : String)
  | failsWith (e : JsErr)

/-- A standards Request, reduced to the fields the framework reads. -/
structure Request where
  method : String
  url : Url
  bodyStream : BodyStream

/-- Result record of parseBody (TS `{ parsed, error }`); `parsed` is
`Val.undef` when there is no parsed value. -/
structure BodyParse where
  parsed : Val
  error : Option SynErr

/-- The host JSON.parse primitive, abstracted: it either returns a value
or throws a SyntaxError.  Its exact grammar is irrelevant to the claims. -/
def JsonParse := String → Except SynErr Val

/-- The try block of parseBody: read the full text (which may throw), map
the empty string to undefined, otherwise JSON.parse (which may throw a
SyntaxError). -/
def parseBodyAttempt (jp : JsonParse) (b : BodyStream) : Except JsErr BodyParse :=
  match b with
  | .noBody => .ok ⟨.undef, none⟩
  | .text t =>
    if t = "" then .ok ⟨.undef, none⟩
    else
      match jp t with
      | .ok v => .ok ⟨v, none⟩
      | .error e => .error (.synErr e.message)
  | .failsWith e => .error e

/-- TS `parseBody`: null body short-circuits to undefined; otherwise the
try block runs and any thrown value is caught and returned as a
SyntaxError (kept as is when it already is one, replaced by a fresh
SyntaxError with message Invalid JSON otherwise). -/
def parseBody (jp : JsonParse) (req : Request) : Except JsErr BodyParse :=
  match req.bodyStream with
  | .noBody => .ok ⟨.undef, none⟩
  | b =>
    match parseBodyAttempt jp b with
    | .ok r => .ok r
    | .error e =>
      .ok ⟨.undef, some (match e with
        | .synErr m => ⟨m⟩
        | _ => ⟨"Invalid JSON"⟩)⟩

/-- TS `Context`: the native request, the raw extracted values, the
validation input state, and the accumulated locals. -/
structure Context where
  request : Request
  raw : Raw
  input : InputState
  locals : Locals

/-- A propagating JavaScript exception: the thrown value together with the
Context attached to it (the `(error as any).context = context` pattern),
when one was attached. -/
structure Thrown where
  err : JsErr
  ctx : Option Context

/-- A Response, reduced to the fields the claims observe. -/
structure Response where
  status : Nat
  body : Val

/-- TS `GuardResult`: allow with an optional locals patch, or deny with a
terminal response. -/
inductive GuardResult where
  | allow (locals : Option Locals)
  | deny (response : Response)

/-- TS `GuardFn`: a guard receives the current context and returns a guard
result or throws. -/
def GuardFn := Context → Except Thrown GuardResult

/-- TS `Handler` descriptor: method, path template, handler function,
optional guards, optional request schemas. -/
structure Handler (S : Type) where
  method : String
  path : String
  handler : Context → Except Thrown Response
  guards : Option (List GuardFn)
  request : Option (RequestSchemas S)

/-- TS `RouteMatch`: the matched descriptor and its extracted path
parameters. -/
structure RouteMatch (S : Type) where
  handler : Handler S
  params : List (String × String)

/-- Split a character list on the slash character. -/
def splitSegs : List Char → List (List Char)
  | [] => [[]]
  | c :: rest =>
    if c = '/' then [] :: splitSegs rest
    else
      match splitSegs rest with
      | [] => [[c]]
      | sg :: ss => (c :: sg) :: ss

/-- Split a pathname on the slash character. -/
def splitPath (s : String) : List String :=
  (splitSegs s.data).map (fun cs => String.mk cs)

/-- One segment of a compiled path template: a literal segment or a named
parameter. -/
inductive TemplateSeg where
  | lit (s : String)
  | param (name : String)

/-- Modelled from the spec: the URLPattern pathname compiler is a host
primitive absent from the sources; per the spec, templates use exact
segment matching and single-segment named parameters (a leading colon). -/
def parseTemplate (path : String) : List TemplateSeg :=
  (splitPath path).map (fun seg =>
    match seg.data with
    | ':' :: rest => .param (String.mk rest)
    | _ => .lit seg)

/-- Modelled from the spec: URLPattern pathname matching.  A literal
template segment matches exactly itself; a named parameter binds one
non-empty segment; segment counts must agree. -/
def matchSegs : List TemplateSeg → List String → Option (List (String × String))
  | [], [] => some []
  | .lit s :: ts, seg :: ss =>
    if seg = s then matchSegs ts ss else none
  | .param n :: ts, seg :: ss =>
    if seg = "" then none
    else (matchSegs ts ss).map (fun ps => (n, seg) :: ps)
  | _, _ => none

/-- TS `match` (router.ts createRouter): walk the registered routes in
order; skip a route whose method is neither the wildcard nor the request
method; return the first route whose compiled pattern matches the URL
path, with its extracted parameters. -/
def matchRoutes {S : Type} (routes : List (Handler S)) (method : String)
    (url : Url) : Option (RouteMatch S) :=
  match routes with
  | [] => none
  | r :: rest =>
    if r.method ≠ "*" ∧ r.method ≠ method then matchRoutes rest method url
    else
      match matchSegs (parseTemplate r.path) url.pathSegs with
      | some params => some ⟨r, params⟩
      | none => matchRoutes rest method url

/-- The JavaScript value of a RouteParams record. -/
def paramsToVal (ps : List (String × String)) : Val :=
  .obj (ps.map (fun kv => (kv.1, .str kv.2)))

/-- The JavaScript value of one query entry. -/
def qvalToVal : QVal → Val
  | .one s => .str s
  | .many ss => .arr (ss.map .str)

/-- The JavaScript value of a parsed query record. -/
def queryToVal (q : List (String × QVal)) : Val :=
  .obj (q.map (fun kv => (kv.1, qvalToVal kv.2)))

/-- Outcome of the guard loop: a denial with its response and the context
entering the denying guard, or all guards allowed with the final context. -/
inductive GuardChainResult where
  | denied (response : Response) (context : Context)
  | passed (context : Context)

/-- The guard loop of handle: run each guard on the current context; a
denial returns immediately; an allowance merges its locals patch into a
new context; a thrown value gets the current context attached and
propagates. -/
def runGuards : List GuardFn → Context → Except Thrown GuardChainResult
  | [], ctx => .ok (.passed ctx)
  | g :: rest, ctx =>
    match g ctx with
    | .error e => .error ⟨e.err, some ctx⟩
    | .ok (.deny resp) => .ok (.denied resp ctx)
    | .ok (.allow none) => runGuards rest ctx
    | .ok (.allow (some patch)) =>
      runGuards rest { ctx with locals := ctx.locals.merge patch }

/-- TS `RouterResponse`: the response and the context that produced it. -/
structure RouterResponse where
  response : Response
  context : Context

/-- The minimal context built for the 404 response when no route
matches. -/
def notFoundContext (request : Request) : Context :=
  ⟨request, ⟨.obj [], .obj [], .undef⟩, .ok (.obj []) (.obj []) .undef, []⟩

/-- The body-read step of handle: the body stream is read (through
parseBody) only when the matched route declares a body schema.  Returns
the body value, the optional parse error, and a ghost flag instrumenting
whether the parseBody call site ran. -/
def routeBodyStep {S : Type} (h : Handler S) (jp : JsonParse)
    (request : Request) : Except Thrown (Val × Option SynErr × Bool) :=
  match h.request with
  | some rs =>
    match rs.body with
    | some _ =>
      match parseBody jp request with
      | .ok r => .ok (r.parsed, r.error, true)
      | .error e => .error ⟨e, none⟩
    | none => .ok (.undef, none, false)
  | none => .ok (.undef, none, false)

/-- TS `handle` (router.ts createRouter): match the route (fixed 404 with
a synthesized context when none matches), extract the query, read the
body only under a declared body schema, validate, build the initial
context from the pre-routing locals, run the guards, then the handler;
thrown values get the current context attached where the source attaches
it.  The Bool of the result is the ghost body-read flag from
routeBodyStep. -/
def handle {S : Type} (routes : List (Handler S)) (validator : Option (Validator S))
    (jp : JsonParse) (request : Request) (initialLocals : Locals) :
    Except Thrown (RouterResponse × Bool) :=
  match matchRoutes routes request.method request.url with
  | none =>
    .ok (⟨⟨404, .str "Not Found"⟩, notFoundContext request⟩, false)
  | some matched =>
    let query := parseQuery request.url.queryPairs
    match routeBodyStep matched.handler jp request with
    | .error e => .error e
    | .ok (bodyValue, bodyParseError, didRead) =>
      let raw : Raw := ⟨paramsToVal matched.params, queryToVal query, bodyValue⟩
      match validateInputs validator matched.handler.request raw bodyParseError with
      | .error e => .error ⟨e, none⟩
      | .ok input =>
        let context : Context := ⟨request, raw, input, initialLocals⟩
        match runGuards (matched.handler.guards.getD []) context with
        | .error e => .error e
        | .ok (.denied resp ctx) => .ok (⟨resp, ctx⟩, didRead)
        | .ok (.passed ctx) =>
          match matched.handler.handler ctx with
          | .error e => .error ⟨e.err, some ctx⟩
          | .ok resp => .ok (⟨resp, ctx⟩, didRead)

/-- TS `HandlerGroup`: a handler, or an arbitrarily nested array of
handler groups. -/
inductive HG (S : Type) where
  | h (handler : Handler S)
  | arr (items : List (HG S))

/-- The flattening loop of group: arrays are flattened recursively (the
recursive call of group with no guards), single handlers are appended. -/
def flattenHG {S : Type} : List (HG S) → List (Handler S)
  | [] => []
  | .h x :: rest => x :: flattenHG rest
  | .arr xs :: rest => flattenHG xs ++ flattenHG rest

/-- TS `GroupOptions`: the handlers of the group and its optional shared
guards. -/
structure GroupOptions (S : Type) where
  handlers : List (HG S)
  guards : Option (List GuardFn)

/-- TS `group`: flatten the nested handlers, then, when guards are present
and non-empty, prepend them to the guards of every handler of the group. -/
def group {S : Type} (options : GroupOptions S) : List (Handler S) :=
  let result := flattenHG options.handlers
  match options.guards with
  | some gs =>
    if gs.length > 0 then
      result.map (fun h => { h with guards := some (gs ++ h.guards.getD []) })
    else result
  | none => result

/-- The default onError: log (a side effect outside this model) and return
a sanitized 500 JSON response. -/
def defaultOnError : JsErr → Context → Except Thrown Response :=
  fun _ _ => .ok ⟨500, .obj [("error", .str "Internal Server Error")]⟩

/-- TS `Config` for setupHttp: handlers, optional validator, optional
error, request and response hooks. -/
structure Config (S : Type) where
  handlers : List (Handler S)
  validator : Option (Validator S)
  onError : Option (JsErr → Context → Except Thrown Response)
  onRequest : Option (Request → Except Thrown (Option Locals))
  onResponse : Option (Context → Response → Except Thrown Response)

/-- The minimal context synthesized inside the fetch catch block when the
caught error carries no attached context. -/
def fallbackContext (request : Request) : Context :=
  ⟨request, ⟨.obj [], .obj [], .undef⟩, .ok (.obj []) (.obj []) .undef, []⟩

/-- The pre-routing step of fetch: run the onRequest hook when configured
and default its (possibly void) result to the empty locals patch. -/
def initialLocalsStep {S : Type} (cfg : Config S) (request : Request) :
    Except Thrown Locals :=
  match cfg.onRequest with
  | none => .ok []
  | some f =>
    match f request with
    | .ok l => .ok (l.getD [])
    | .error e => .error e

/-- The try block of the fetch function of setupHttp: pre-routing hook,
dispatch, then the response hook.  The source guards the hook call with
`onResponse && response.context`; handle always returns a context (a
record, hence truthy), so the condition reduces to the hook being
configured. -/
def fetchTry {S : Type} (cfg : Config S) (jp : JsonParse) (request : Request) :
    Except Thrown Response :=
  match initialLocalsStep cfg request with
  | .error e => .error e
  | .ok initialLocals =>
    match handle cfg.handlers cfg.validator jp request initialLocals with
    | .error e => .error e
    | .ok (rr, _) =>
      match cfg.onResponse with
      | some onResp => onResp rr.context rr.response
      | none => .ok rr.response

/-- TS `setupHttp` fetch: the try block, with every thrown value caught
once at this outermost boundary and passed to the configured (or default)
onError together with the context attached to the error, or the fallback
context when none was attached. -/
def fetchFn {S : Type} (cfg : Config S) (jp : JsonParse) (request : Request) :
    Except Thrown Response :=
  match fetchTry cfg jp request with
  | .ok r => .ok r
  | .error e =>
    (cfg.onError.getD defaultOnError) e.err (e.ctx.getD (fallbackContext request))

/-- The value of a passing outcome, with a default for failures. -/
def PartOutcome.valueD (d : Val) : PartOutcome → Val
  | .pass v => v
  | .fail _ _ => d

/-- The accumulator after the three validation blocks is exactly the
aggregation of the three independent part outcomes. -/
theorem acc_spec {S : Type} (v : Validator S) (s : RequestSchemas S)
    (raw : Raw) (bpe : Option SynErr) :
    stepBody v s raw bpe (stepQuery v s raw (stepParams v s raw (initAcc raw))) =
      ⟨(if (specPartEval v s raw bpe .params).isFail then [.params] else []) ++
        (if (specPartEval v s raw bpe .query).isFail then [.query] else []) ++
        (if (specPartEval v s raw bpe .body).isFail then [.body] else []),
       (specPartEval v s raw bpe .params).issuesOf ++
        (specPartEval v s raw bpe .query).issuesOf ++
        (specPartEval v s raw bpe .body).issuesOf,
       ⟨(specPartEval v s raw bpe .params).errOf,
        (specPartEval v s raw bpe .query).errOf,
        (specPartEval v s raw bpe .body).errOf⟩,
       (specPartEval v s raw bpe .params).valueD raw.params,
       (specPartEval v s raw bpe .query).valueD raw.query,
       (specPartEval v s raw bpe .body).valueD raw.body⟩ := by
  obtain ⟨sp, sq, sb⟩ := s
  rcases sp with _ | scp <;> rcases sq with _ | scq <;> rcases sb with _ | scb <;>
    rcases bpe with _ | pe <;>
    simp only [stepParams, stepQuery, stepBody, initAcc, specPartEval] <;>
    (repeat' split) <;>
    simp_all [PartOutcome.isFail, PartOutcome.issuesOf, PartOutcome.errOf,
      PartOutcome.valueD, ErrMap.empty]

/-- Lookup distributes over list append, preferring the left part. -/
theorem Locals.get_append (x y : Locals) (k : String) :
    Locals.get (x ++ y) k = (Locals.get x k).or (Locals.get y k) := by
  induction x with
  | nil => simp [Locals.get]
  | cons p x ih =>
    by_cases h : p.1 = k <;> simp [Locals.get, h, ih]

/-- A key that lookup misses is missed by find? as well. -/
theorem Locals.find_none_of_get_none (b : Locals) (k : String)
    (h : Locals.get b k = none) : b.find? (fun q => q.1 = k) = none := by
  induction b with
  | nil => rfl
  | cons q b ih =>
    by_cases hq : q.1 = k
    · simp [Locals.get, hq] at h
    · simp only [Locals.get, hq, if_false] at h
      simp [List.find?, hq, ih h]

/-- Filtering out the keys of a patch that misses k does not change the
lookup of k. -/
theorem Locals.get_filter_of_none (a b : Locals) (k : String)
    (h : Locals.get b k = none) :
    Locals.get (a.filter (fun p => (b.find? (fun q => q.1 = p.1)).isNone)) k =
      Locals.get a k := by
  induction a with
  | nil => rfl
  | cons p a ih =>
    by_cases hp : p.1 = k
    · have hf : (b.find? fun q => q.1 = k) = none :=
        Locals.find_none_of_get_none b k h
      simp [List.filter, Locals.get, hp, hf]
    · cases hf : (b.find? fun q => q.1 = p.1).isNone <;>
        simp [List.filter, hf, Locals.get, hp, ih]

/-- Lookup in a merge: a key defined by the patch takes the patch value,
any other key keeps its previous value (the object spread override law).
In particular no patch can remove a previously set key. -/
theorem Locals.get_merge (a b : Locals) (k : String) :
    (Locals.merge a b).get k = (Locals.get b k).or (Locals.get a k) := by
  unfold Locals.merge
  rw [Locals.get_append]
  cases hb : Locals.get b k with
  | some v => simp
  | none => simp [Locals.get_filter_of_none a b k hb]

/-- Apply the optional locals patch of an allowing guard to a context:
this is the context re-creation step of the guard loop. -/
def applyPatch (ctx : Context) : Option Locals → Context
  | none => ctx
  | some l => { ctx with locals := ctx.locals.merge l }

/-- The context produced by a chain of allowing guards with the given
patches, starting from an initial context. -/
def chainCtx (ctx0 : Context) (ps : List (Option Locals)) : Context :=
  ps.foldl applyPatch ctx0

/-- The value a list of patches assigns to a key: the value of the last
patch defining the key, if any. -/
def patchesGet : List (Option Locals) → String → Option Val
  | [], _ => none
  | p :: ps, k =>
    (patchesGet ps k).or (match p with | none => none | some l => l.get k)

theorem chainCtx_nil (ctx0 : Context) : chainCtx ctx0 [] = ctx0 := rfl

theorem chainCtx_cons (ctx0 : Context) (p : Option Locals)
    (ps : List (Option Locals)) :
    chainCtx ctx0 (p :: ps) = chainCtx (applyPatch ctx0 p) ps := rfl

/-- The locals of the chained context: a key takes the value of the last
patch that defines it, and otherwise its initial value. -/
theorem chainCtx_get (ctx0 : Context) (ps : List (Option Locals)) (k : String) :
    (chainCtx ctx0 ps).locals.get k =
      (patchesGet ps k).or (ctx0.locals.get k) := by
  induction ps generalizing ctx0 with
  | nil => simp [chainCtx, patchesGet]
  | cons p ps ih =>
    rw [chainCtx_cons, ih]
    cases p with
    | none => simp [patchesGet, applyPatch]
    | some l =>
      simp only [patchesGet, applyPatch, Locals.get_merge]
      cases patchesGet ps k <;> cases Locals.get l k <;> simp

/-- The chain preserves the request, raw values and input state. -/
theorem chainCtx_frame (ctx0 : Context) (ps : List (Option Locals)) :
    (chainCtx ctx0 ps).request = ctx0.request ∧
    (chainCtx ctx0 ps).raw = ctx0.raw ∧
    (chainCtx ctx0 ps).input = ctx0.input := by
  induction ps generalizing ctx0 with
  | nil => exact ⟨rfl, rfl, rfl⟩
  | cons p ps ih =>
    rw [chainCtx_cons]
    cases p with
    | none => exact ih ctx0
    | some l => exact ih _

/-- C1: with a validator adapter and declared request schemas, validateInputs
evaluates the declared parts independently in the order params, query, body;
on any failure it returns the failure variant whose failed list holds exactly
the failed parts in that order, whose issues are the concatenation of the
failed parts issues in the same order, and whose received record echoes the
raw params, query and body unconditionally; on total success it returns the
success variant with each schemaed part validated and each unschemaed part
passed through raw. -/
theorem c1_validateInputs_independent_parts {S : Type} (v : Validator S)
    (s : RequestSchemas S) (raw : Raw) (bodyParseError : Option SynErr) :
    validateInputs (some v) (some s) raw bodyParseError =
      .ok (specValidate v s raw bodyParseError) := by
  have h := acc_spec v s raw bodyParseError
  simp only [validateInputs]
  rw [h]
  simp only [specValidate]
  rcases hp : specPartEval v s raw bodyParseError .params with wp | ⟨ip, ep⟩ <;>
    rcases hq : specPartEval v s raw bodyParseError .query with wq | ⟨iq, eq2⟩ <;>
    rcases hb : specPartEval v s raw bodyParseError .body with wb | ⟨ib, eb⟩ <;>
      simp [hp, hq, hb, partsOrder, PartOutcome.isFail, PartOutcome.issuesOf,
        PartOutcome.valueD, PartOutcome.valueOf, PartOutcome.errOf,
        ErrMap.isEmpty, List.filter]

/-- C2: in a guard chain where every guard allows with a known patch, the
guard loop threads exactly the chained contexts and ends in the chained
final context, whose locals are the union of the initial locals and all
patches: a key defined by some patch takes the value of the last patch
defining it (a later guard overrides an earlier one), a key defined by no
patch keeps its initial value (no patch removes a previously set key),
and every key set by some patch stays visible to the handler. -/
theorem c2_locals_accumulation
    (gsps : List (GuardFn × Option Locals)) (ctx0 : Context)
    (hbehave : ∀ pre gp post, gsps = pre ++ gp :: post →
      gp.1 (chainCtx ctx0 (pre.map (fun x => x.2))) = .ok (.allow gp.2)) :
    runGuards (gsps.map (fun x => x.1)) ctx0 =
      .ok (.passed (chainCtx ctx0 (gsps.map (fun x => x.2)))) ∧
    (∀ k, (chainCtx ctx0 (gsps.map (fun x => x.2))).locals.get k =
      (patchesGet (gsps.map (fun x => x.2)) k).or (ctx0.locals.get k)) ∧
    (∀ k, patchesGet (gsps.map (fun x => x.2)) k = none →
      (chainCtx ctx0 (gsps.map (fun x => x.2))).locals.get k =
        ctx0.locals.get k) ∧
    (∀ k v, patchesGet (gsps.map (fun x => x.2)) k = some v →
      (chainCtx ctx0 (gsps.map (fun x => x.2))).locals.get k = some v) := by
  refine ⟨?_, fun k => chainCtx_get ctx0 _ k, fun k h => ?_, fun k v h => ?_⟩
  · induction gsps generalizing ctx0 with
    | nil => rfl
    | cons gp rest ih =>
      have hg : gp.1 ctx0 = .ok (.allow gp.2) := by
        have := hbehave [] gp rest rfl
        simpa [chainCtx] using this
      simp only [List.map_cons, runGuards, hg]
      have hrest : ∀ pre gp2 post, rest = pre ++ gp2 :: post →
          gp2.1 (chainCtx (applyPatch ctx0 gp.2) (pre.map (fun x => x.2))) =
            .ok (.allow gp2.2) := by
        intro pre gp2 post hsplit
        have := hbehave (gp :: pre) gp2 post (by rw [hsplit]; rfl)
        simpa [chainCtx_cons] using this
      have := ih (applyPatch ctx0 gp.2) hrest
      cases hpp : gp.2 with
      | none =>
        rw [hpp] at this
        simpa [chainCtx_cons, applyPatch] using this
      | some patch =>
        rw [hpp] at this
        simpa [chainCtx_cons, applyPatch] using this
  · rw [chainCtx_get, h]; rfl
  · rw [chainCtx_get, h]; rfl

/-- The guard loop distributes over list append: the tail runs only when
every guard of the prefix allowed. -/
theorem runGuards_append (xs ys : List GuardFn) (ctx : Context) :
    runGuards (xs ++ ys) ctx =
      match runGuards xs ctx with
      | .ok (.passed c) => runGuards ys c
      | .ok (.denied r c) => .ok (.denied r c)
      | .error e => .error e := by
  induction xs generalizing ctx with
  | nil => simp [runGuards]
  | cons g rest ih =>
    simp only [List.cons_append, runGuards]
    cases hg : g ctx with
    | error e => rfl
    | ok gr =>
      cases gr with
      | deny r => rfl
      | allow p =>
        cases p with
        | none => exact ih ctx
        | some patch => exact ih _

/-- Concrete request for witnesses. -/
def c2req : Request := ⟨"GET", ⟨[""], []⟩, .noBody⟩

/-- Concrete initial context for the C2 witness, with one initial local. -/
def c2ctx0 : Context :=
  ⟨c2req, ⟨.obj [], .obj [], .undef⟩, .ok (.obj []) (.obj []) .undef,
    [("init", .num 0)]⟩

/-- Patch of the first witness guard: sets k and a. -/
def c2p1 : Locals := [("k", .num 1), ("a", .num 10)]

/-- Patch of the second witness guard: overrides k. -/
def c2p2 : Locals := [("k", .num 2)]

/-- First witness guard. -/
def c2g1 : GuardFn := fun _ => .ok (.allow (some c2p1))

/-- Second witness guard. -/
def c2g2 : GuardFn := fun _ => .ok (.allow (some c2p2))

/-- The witness guard chain with its patches. -/
def c2gsps : List (GuardFn × Option Locals) := [(c2g1, some c2p1), (c2g2, some c2p2)]

theorem c2_locals_accumulation_witness :
    runGuards [c2g1, c2g2] c2ctx0 =
      .ok (.passed (chainCtx c2ctx0 [some c2p1, some c2p2])) ∧
    (chainCtx c2ctx0 [some c2p1, some c2p2]).locals.get "k" = some (.num 2) ∧
    (chainCtx c2ctx0 [some c2p1, some c2p2]).locals.get "a" = some (.num 10) ∧
    (chainCtx c2ctx0 [some c2p1, some c2p2]).locals.get "init" = some (.num 0) := by
  have hb : ∀ pre gp post, c2gsps = pre ++ gp :: post →
      gp.1 (chainCtx c2ctx0 (pre.map (fun x => x.2))) = .ok (.allow gp.2) := by
    intro pre gp post hsplit
    simp only [c2gsps] at hsplit
    rcases pre with _ | ⟨x, _ | ⟨y, pre⟩⟩
    · rw [List.nil_append] at hsplit
      injection hsplit with h1 h2
      rw [← h1]
      rfl
    · rw [List.cons_append, List.nil_append] at hsplit
      injection hsplit with h1 h2
      injection h2 with h2 h3
      rw [← h2]
      rfl
    · simp only [List.cons_append] at hsplit
      injection hsplit with h1 h2
      injection h2 with h2 h3
      simp at h3
  exact ⟨(c2_locals_accumulation c2gsps c2ctx0 hb).1, rfl, rfl, rfl⟩

/-- C3: group prepends its guards to the guards of every handler of the
(recursively flattened) group, preserving order within each level; the
guard chain executes in exactly that order and stops at the first denial:
when the guards before the denier all allow, the denier decides the
outcome for every possible suffix of guards, and the dispatcher then
returns the denial response for every possible handler (neither the
suffix guards nor the handler runs). -/
theorem c3_group_order_first_deny {S : Type} :
    (∀ hs : List (HG S), group ⟨hs, none⟩ = flattenHG hs) ∧
    (∀ (hs : List (HG S)) (gs : List GuardFn), gs ≠ [] →
      group ⟨hs, some gs⟩ =
        (flattenHG hs).map
          (fun h => { h with guards := some (gs ++ h.guards.getD []) })) ∧
    (∀ (pre : List GuardFn) (g : GuardFn) (post : List GuardFn)
        (ctx0 c2 : Context) (resp : Response),
      runGuards pre ctx0 = .ok (.passed c2) →
      g c2 = .ok (.deny resp) →
      runGuards (pre ++ g :: post) ctx0 = .ok (.denied resp c2)) ∧
    (∀ (routes : List (Handler S)) (validator : Option (Validator S))
        (jp : JsonParse) (request : Request) (initialLocals : Locals)
        (matched : RouteMatch S) (bv : Val) (bpe : Option SynErr) (dr : Bool)
        (input : InputState) (resp : Response) (ctx2 : Context),
      matchRoutes routes request.method request.url = some matched →
      routeBodyStep matched.handler jp request = .ok (bv, bpe, dr) →
      validateInputs validator matched.handler.request
        ⟨paramsToVal matched.params,
         queryToVal (parseQuery request.url.queryPairs), bv⟩ bpe = .ok input →
      runGuards (matched.handler.guards.getD [])
        ⟨request,
         ⟨paramsToVal matched.params,
          queryToVal (parseQuery request.url.queryPairs), bv⟩,
         input, initialLocals⟩ = .ok (.denied resp ctx2) →
      handle routes validator jp request initialLocals = .ok (⟨resp, ctx2⟩, dr)) := by
  refine ⟨fun hs => rfl, fun hs gs hgs => ?_, ?_, ?_⟩
  · simp only [group]
    rw [if_pos (List.length_pos.mpr hgs)]
  · intro pre g post ctx0 c2 resp h1 h2
    rw [runGuards_append, h1]
    simp [runGuards, h2]
  · intro routes validator jp request initialLocals matched bv bpe dr input resp ctx2
      hmatch hbody hval hguards
    simp only [handle, hmatch, hbody, hval, hguards]

/-- The denial response of the C3 witness. -/
def c3deny : Response := ⟨403, .str "denied"⟩

/-- An allowing guard with no patch. -/
def c3gAllow : GuardFn := fun _ => .ok (.allow none)

/-- A denying guard. -/
def c3gDeny : GuardFn := fun _ => .ok (.deny c3deny)

/-- A guard after the denier; it must never influence the outcome. -/
def c3gAfter : GuardFn := fun _ => .ok (.allow (some [("after", .num 1)]))

/-- The C3 witness route: guards allow, deny, after; handler returns 200. -/
def c3handler : Handler Unit :=
  ⟨"GET", "/x", fun _ => .ok ⟨200, .str "ok"⟩,
    some [c3gAllow, c3gDeny, c3gAfter], none⟩

/-- The C3 witness request for GET /x. -/
def c3req : Request := ⟨"GET", ⟨["", "x"], []⟩, .noBody⟩

/-- A JSON.parse oracle that always fails (never reached in the witness). -/
def c3jp : JsonParse := fun _ => .error ⟨"x"⟩

theorem c3_group_order_first_deny_witness :
    group ⟨[.h c3handler], some [c3gAllow]⟩ =
      [{ c3handler with
          guards := some [c3gAllow, c3gAllow, c3gDeny, c3gAfter] }] ∧
    handle [c3handler] (none : Option (Validator Unit)) c3jp c3req [] =
      .ok (⟨c3deny,
        ⟨c3req, ⟨.obj [], .obj [], .undef⟩, .ok (.obj []) (.obj []) .undef, []⟩⟩,
        false) := by
  constructor
  · have h := (c3_group_order_first_deny (S := Unit)).2.1 [.h c3handler] [c3gAllow]
      (by simp)
    simpa [flattenHG, c3handler] using h
  · exact (c3_group_order_first_deny (S := Unit)).2.2.2 [c3handler] none c3jp c3req []
      ⟨c3handler, []⟩ .undef none false (.ok (.obj []) (.obj []) .undef) c3deny
      ⟨c3req, ⟨.obj [], .obj [], .undef⟩, .ok (.obj []) (.obj []) .undef, []⟩
      rfl rfl rfl rfl

/-- A route qualifies for a request when its method is the wildcard or the
request method, and its compiled template matches the URL path. -/
def qualifies {S : Type} (h : Handler S) (method : String) (url : Url) : Bool :=
  (h.method == "*" || h.method == method) &&
    (matchSegs (parseTemplate h.path) url.pathSegs).isSome

/-- C4: match returns the first registered descriptor whose method is the
request method or the wildcard and whose template matches the URL path,
with the parameters extracted by that match; it returns none exactly when
no registered descriptor qualifies; and any returned match is a
registered, qualifying descriptor with its extracted parameters. -/
theorem c4_match_first_in_order {S : Type} (method : String) (url : Url) :
    (∀ (pre : List (Handler S)) (h : Handler S) (post : List (Handler S))
        (ps : List (String × String)),
      (∀ h2 ∈ pre, qualifies h2 method url = false) →
      (h.method = "*" ∨ h.method = method) →
      matchSegs (parseTemplate h.path) url.pathSegs = some ps →
      matchRoutes (pre ++ h :: post) method url = some ⟨h, ps⟩) ∧
    (∀ routes : List (Handler S),
      matchRoutes routes method url = none ↔
        ∀ h ∈ routes, qualifies h method url = false) ∧
    (∀ (routes : List (Handler S)) (res : RouteMatch S),
      matchRoutes routes method url = some res →
      res.handler ∈ routes ∧ qualifies res.handler method url = true ∧
        matchSegs (parseTemplate res.handler.path) url.pathSegs =
          some res.params) := by
  refine ⟨?_, ?_, ?_⟩
  · intro pre h post ps hpre hmeth hsegs
    induction pre with
    | nil =>
      have hcond : ¬(h.method ≠ "*" ∧ h.method ≠ method) := by
        rcases hmeth with h1 | h1 <;> simp [h1]
      simp only [List.nil_append, matchRoutes, if_neg hcond, hsegs]
    | cons p pre ih =>
      have hp : qualifies p method url = false := hpre p (List.mem_cons_self p pre)
      have ihq : matchRoutes (pre ++ h :: post) method url = some ⟨h, ps⟩ :=
        ih (fun h2 hm => hpre h2 (List.mem_cons_of_mem p hm))
      by_cases hc : p.method ≠ "*" ∧ p.method ≠ method
      · simpa [matchRoutes, if_pos hc] using ihq
      · have hb : (matchSegs (parseTemplate p.path) url.pathSegs).isSome = false := by
          simp only [qualifies, Bool.and_eq_false_iff] at hp
          rcases hp with hp | hp
          · exfalso
            rw [not_and_or, not_not, not_not] at hc
            rcases hc with h1 | h1 <;> simp [h1] at hp
          · exact hp
        have hsegs2 : matchSegs (parseTemplate p.path) url.pathSegs = none :=
          Option.not_isSome_iff_eq_none.mp (by simp [hb])
        simpa [matchRoutes, if_neg hc, hsegs2] using ihq
  · intro routes
    induction routes with
    | nil => simp [matchRoutes]
    | cons r rest ih =>
      by_cases hc : r.method ≠ "*" ∧ r.method ≠ method
      · have hq : qualifies r method url = false := by
          simp only [qualifies, Bool.and_eq_false_iff]
          left
          simp [hc.1, hc.2]
        simp [matchRoutes, if_pos hc, ih, hq]
      · cases hsegs : matchSegs (parseTemplate r.path) url.pathSegs with
        | some ps =>
          have hmeth : r.method = "*" ∨ r.method = method := by
            rw [not_and_or, not_not, not_not] at hc
            exact hc
          have hq : qualifies r method url = true := by
            simp only [qualifies, hsegs, Option.isSome_some, Bool.and_true]
            rcases hmeth with h1 | h1 <;> simp [h1]
          constructor
          · intro hnone
            rw [matchRoutes, if_neg hc, hsegs] at hnone
            cases hnone
          · intro hall
            have hfalse := hall r (List.mem_cons_self r rest)
            simp [hq] at hfalse
        | none =>
          have hq : qualifies r method url = false := by
            simp [qualifies, hsegs]
          simp [matchRoutes, if_neg hc, hsegs, ih, hq]
  · intro routes res
    induction routes with
    | nil => simp [matchRoutes]
    | cons r rest ih =>
      intro hm
      by_cases hc : r.method ≠ "*" ∧ r.method ≠ method
      · rw [matchRoutes, if_pos hc] at hm
        obtain ⟨h1, h2, h3⟩ := ih hm
        exact ⟨List.mem_cons_of_mem r h1, h2, h3⟩
      · rw [matchRoutes, if_neg hc] at hm
        cases hsegs : matchSegs (parseTemplate r.path) url.pathSegs with
        | some ps =>
          rw [hsegs] at hm
          injection hm with hm
          subst hm
          refine ⟨List.mem_cons_self r rest, ?_, hsegs⟩
          have : r.method = "*" ∨ r.method = method := by
            rw [not_and_or, not_not, not_not] at hc
            exact hc
          simp only [qualifies, hsegs, Option.isSome_some, Bool.and_true]
          rcases this with h1 | h1 <;> simp [h1]
        | none =>
          rw [hsegs] at hm
          obtain ⟨h1, h2, h3⟩ := ih hm
          exact ⟨List.mem_cons_of_mem r h1, h2, h3⟩

/-- A POST route for the C4 witness; skipped on a GET request. -/
def c4post : Handler Unit :=
  ⟨"POST", "/users/:id", fun _ => .ok ⟨201, .str "created"⟩, none, none⟩

/-- A wildcard route for the C4 witness registered after the POST one. -/
def c4wild : Handler Unit :=
  ⟨"*", "/users/:id", fun _ => .ok ⟨200, .str "any"⟩, none, none⟩

/-- The URL of the C4 witness request. -/
def c4url : Url := ⟨["", "users", "123"], []⟩

theorem c4_match_first_in_order_witness :
    matchRoutes [c4post, c4wild] "GET" c4url = some ⟨c4wild, [("id", "123")]⟩ ∧
    matchRoutes [c4post] "GET" c4url = none :=
  ⟨(c4_match_first_in_order (S := Unit) "GET" c4url).1 [c4post] c4wild []
      [("id", "123")]
      (by intro h2 hm; rw [List.mem_singleton] at hm; subst hm; rfl)
      (Or.inl rfl) rfl,
    ((c4_match_first_in_order (S := Unit) "GET" c4url).2.1 [c4post]).mpr
      (by intro h hm; rw [List.mem_singleton] at hm; subst hm; rfl)⟩

/-- C5: with a declared body schema, an empty-string body parses to
undefined with no error (not a failure); a non-empty body rejected by
JSON.parse yields a parse error that validateInputs turns into exactly one
issue with part body, message Invalid JSON and empty path; and with a
pending body parse error the result never depends on the validator
behaviour for the body part (the issue is synthesized without invoking
it). -/
theorem c5_body_boundary {S : Type} :
    (∀ (jp : JsonParse) (req : Request), req.bodyStream = .text "" →
      parseBody jp req = .ok ⟨.undef, none⟩) ∧
    (∀ (jp : JsonParse) (req : Request) (t : String) (e : SynErr),
      req.bodyStream = .text t → t ≠ "" → jp t = .error e →
      parseBody jp req = .ok ⟨.undef, some e⟩) ∧
    (∀ (v : Validator S) (sch : S) (raw : Raw) (e : SynErr),
      validateInputs (some v) (some ⟨none, none, some sch⟩) raw (some e) =
        .ok (.err [.body] [⟨.body, [], "Invalid JSON", none⟩]
          ⟨raw.params, raw.query, raw.body⟩
          (some ⟨none, none, some (.fromParse e)⟩))) ∧
    (∀ (v w : Validator S) (s : RequestSchemas S) (raw : Raw) (e : SynErr),
      (∀ sch x, v sch x .params = w sch x .params) →
      (∀ sch x, v sch x .query = w sch x .query) →
      validateInputs (some v) (some s) raw (some e) =
        validateInputs (some w) (some s) raw (some e)) := by
  refine ⟨?_, ?_, ?_, ?_⟩
  · intro jp req h
    obtain ⟨m, u, bs⟩ := req
    simp only at h
    subst h
    rfl
  · intro jp req t e ht hne hjp
    obtain ⟨m, u, bs⟩ := req
    simp only at ht
    subst ht
    obtain ⟨msg⟩ := e
    simp [parseBody, parseBodyAttempt, hne, hjp]
  · intro v sch raw e
    rfl
  · intro v w s raw e hp hq
    have h1 : stepParams v s raw (initAcc raw) = stepParams w s raw (initAcc raw) := by
      cases hsp : s.params <;> simp [stepParams, hsp, hp]
    have h2 : ∀ a, stepQuery v s raw a = stepQuery w s raw a := by
      intro a
      cases hsq : s.query <;> simp [stepQuery, hsq, hq]
    have h3 : ∀ a, stepBody v s raw (some e) a = stepBody w s raw (some e) a := by
      intro a
      cases hsb : s.body <;> simp [stepBody, hsb]
    have hacc :
        stepBody v s raw (some e) (stepQuery v s raw (stepParams v s raw (initAcc raw))) =
          stepBody w s raw (some e) (stepQuery w s raw (stepParams w s raw (initAcc raw))) := by
      rw [h1, h2, h3]
    simp only [validateInputs, hacc]

/-- JSON.parse oracle of the C5 witness: rejects every text. -/
def c5jp : JsonParse := fun _ => .error ⟨"Unexpected token"⟩

/-- C5 witness request with an empty string body. -/
def c5reqEmpty : Request := ⟨"POST", ⟨["", "u"], []⟩, .text ""⟩

/-- C5 witness request with a malformed non-empty body. -/
def c5reqBad : Request := ⟨"POST", ⟨["", "u"], []⟩, .text "not json"⟩

/-- C5 witness validator: accepts everything. -/
def c5v : Validator Unit := fun _ _ _ => .ok .null

/-- C5 witness validator differing from c5v only on the body part. -/
def c5w : Validator Unit := fun _ _ p =>
  match p with
  | .body => .err [] none
  | _ => .ok .null

/-- C5 witness raw values. -/
def c5raw : Raw := ⟨.obj [], .obj [], .undef⟩

theorem c5_body_boundary_witness :
    parseBody c5jp c5reqEmpty = .ok ⟨.undef, none⟩ ∧
    parseBody c5jp c5reqBad = .ok ⟨.undef, some ⟨"Unexpected token"⟩⟩ ∧
    validateInputs (some c5v) (some ⟨none, none, some ()⟩) c5raw
        (some ⟨"Unexpected token"⟩) =
      .ok (.err [.body] [⟨.body, [], "Invalid JSON", none⟩]
        ⟨.obj [], .obj [], .undef⟩
        (some ⟨none, none, some (.fromParse ⟨"Unexpected token"⟩)⟩)) ∧
    validateInputs (some c5v) (some ⟨some (), none, some ()⟩) c5raw
        (some ⟨"Unexpected token"⟩) =
      validateInputs (some c5w) (some ⟨some (), none, some ()⟩) c5raw
        (some ⟨"Unexpected token"⟩) :=
  ⟨(c5_body_boundary (S := Unit)).1 c5jp c5reqEmpty rfl,
   (c5_body_boundary (S := Unit)).2.1 c5jp c5reqBad "not json" ⟨"Unexpected token"⟩
     rfl (by decide) rfl,
   (c5_body_boundary (S := Unit)).2.2.1 c5v () c5raw ⟨"Unexpected token"⟩,
   (c5_body_boundary (S := Unit)).2.2.2 c5v c5w ⟨some (), none, some ()⟩ c5raw
     ⟨"Unexpected token"⟩ (fun sch x => rfl) (fun sch x => rfl)⟩

/-- The guard loop only rebuilds locals: a passed context keeps the raw
values of the entry context. -/
theorem runGuards_passed_frame (gs : List GuardFn) (ctx c2 : Context)
    (h : runGuards gs ctx = .ok (.passed c2)) : c2.raw = ctx.raw := by
  induction gs generalizing ctx with
  | nil =>
    simp only [runGuards] at h
    injection h with h
    injection h with h
    rw [← h]
  | cons g gs ih =>
    simp only [runGuards] at h
    split at h
    · cases h
    · cases h
    · exact ih ctx h
    · exact (ih _ h).trans rfl
  
/-- A denied context keeps the raw values of the entry context. -/
theorem runGuards_denied_frame (gs : List GuardFn) (ctx c2 : Context)
    (r : Response) (h : runGuards gs ctx = .ok (.denied r c2)) :
    c2.raw = ctx.raw := by
  induction gs generalizing ctx with
  | nil => simp only [runGuards] at h; cases h
  | cons g gs ih =>
    simp only [runGuards] at h
    split at h
    · cases h
    · injection h with h
      injection h with h1 h2
      rw [← h2]
    · exact ih ctx h
    · exact (ih _ h).trans rfl

/-- A context attached to a guard-thrown error keeps the raw values of the
entry context. -/
theorem runGuards_error_frame (gs : List GuardFn) (ctx c2 : Context)
    (e : Thrown) (h : runGuards gs ctx = .error e) (hc : e.ctx = some c2) :
    c2.raw = ctx.raw := by
  induction gs generalizing ctx with
  | nil => simp only [runGuards] at h; cases h
  | cons g gs ih =>
    simp only [runGuards] at h
    split at h
    · injection h with h
      rw [← h] at hc
      simp only at hc
      injection hc with hc
      rw [← hc]
    · cases h
    · exact ih ctx h
    · exact (ih _ h).trans rfl

/-- C6: when the matched route declares no body schema, the parseBody call
site never runs (ghost flag false) and the raw body is left undefined in
the context of every normal outcome and in the context attached to any
thrown error. -/
theorem c6_no_body_schema_never_reads {S : Type}
    (routes : List (Handler S)) (validator : Option (Validator S))
    (jp : JsonParse) (request : Request) (initialLocals : Locals)
    (matched : RouteMatch S)
    (hmatch : matchRoutes routes request.method request.url = some matched)
    (hnb : (matched.handler.request.bind (fun rs => rs.body)) = none) :
    (∀ rr b, handle routes validator jp request initialLocals = .ok (rr, b) →
      b = false ∧ rr.context.raw.body = .undef) ∧
    (∀ e c, handle routes validator jp request initialLocals = .error e →
      e.ctx = some c → c.raw.body = .undef) := by
  have hbody : routeBodyStep matched.handler jp request = .ok (.undef, none, false) := by
    unfold routeBodyStep
    cases hreq : matched.handler.request with
    | none => rfl
    | some rs =>
      rw [hreq] at hnb
      simp only [Option.some_bind] at hnb
      simp [hnb]
  constructor
  · intro rr b hok
    simp only [handle, hmatch, hbody] at hok
    split at hok
    · cases hok
    · split at hok
      · cases hok
      · next resp ctx2 heq =>
        injection hok with hok
        injection hok with hA hB
        rw [← hA, ← hB]
        refine ⟨rfl, ?_⟩
        have := runGuards_denied_frame _ _ ctx2 resp heq
        rw [this]
      · next ctx2 heq =>
        split at hok
        · cases hok
        · injection hok with hok
          injection hok with hA hB
          rw [← hA, ← hB]
          refine ⟨rfl, ?_⟩
          have := runGuards_passed_frame _ _ ctx2 heq
          rw [this]
  · intro e c herr hc
    simp only [handle, hmatch, hbody] at herr
    split at herr
    · injection herr with herr
      rw [← herr] at hc
      cases hc
    · split at herr
      · next e0 heq =>
        injection herr with herr
        rw [← herr] at hc
        have := runGuards_error_frame _ _ c e0 heq hc
        rw [this]
      · cases herr
      · next ctx2 heq =>
        split at herr
        · injection herr with herr
          rw [← herr] at hc
          simp only at hc
          injection hc with hc
          rw [← hc]
          have := runGuards_passed_frame _ _ ctx2 heq
          rw [this]
        · cases herr

/-- C6 witness route: no schemas at all. -/
def c6handler : Handler Unit :=
  ⟨"GET", "/y", fun _ => .ok ⟨200, .str "ok"⟩, none, none⟩

/-- C6 witness request carrying a body that must never be read. -/
def c6req : Request := ⟨"GET", ⟨["", "y"], []⟩, .text "some body"⟩

/-- C6 witness JSON.parse oracle. -/
def c6jp : JsonParse := fun _ => .error ⟨"boom"⟩

theorem c6_no_body_schema_never_reads_witness :
    false = false ∧
      (⟨c6req, ⟨.obj [], .obj [], .undef⟩, .ok (.obj []) (.obj []) .undef, []⟩ :
        Context).raw.body = Val.undef :=
  (c6_no_body_schema_never_reads [c6handler] none c6jp c6req [] ⟨c6handler, []⟩
      rfl rfl).1
    ⟨⟨200, .str "ok"⟩,
      ⟨c6req, ⟨.obj [], .obj [], .undef⟩, .ok (.obj []) (.obj []) .undef, []⟩⟩
    false rfl

/-- parseBody resolves for every request: every thrown value is caught and
returned inside the result. -/
theorem parseBody_never_throws (jp : JsonParse) (req : Request) :
    ∃ r, parseBody jp req = .ok r := by
  obtain ⟨m, u, bs⟩ := req
  cases bs with
  | noBody => exact ⟨_, rfl⟩
  | text t =>
    by_cases ht : t = ""
    · subst ht; exact ⟨_, rfl⟩
    · simp only [parseBody, parseBodyAttempt, if_neg ht]
      cases hjp : jp t with
      | ok v => exact ⟨_, rfl⟩
      | error e => exact ⟨_, rfl⟩
  | failsWith e => cases e <;> exact ⟨_, rfl⟩

/-- C7: with request schemas declared on the matched route and no validator
configured, validateInputs throws (it never returns a failure-variant
input state) and, with the default error handler, the request resolves to
the sanitized 500 response of the error boundary. -/
theorem c7_missing_validator_is_500 {S : Type}
    (cfg : Config S) (jp : JsonParse) (request : Request)
    (matched : RouteMatch S) (schemas : RequestSchemas S) (locals0 : Locals)
    (hval : cfg.validator = none)
    (herrdef : cfg.onError = none)
    (hinit : initialLocalsStep cfg request = .ok locals0)
    (hmatch : matchRoutes cfg.handlers request.method request.url = some matched)
    (hschemas : matched.handler.request = some schemas) :
    (∀ (raw : Raw) (bpe : Option SynErr),
      validateInputs (none : Option (Validator S)) (some schemas) raw bpe =
        .error (.genErr validatorRequiredMsg)) ∧
    fetchFn cfg jp request =
      .ok ⟨500, .obj [("error", .str "Internal Server Error")]⟩ := by
  refine ⟨fun raw bpe => rfl, ?_⟩
  have hbody : ∃ bv bpe dr,
      routeBodyStep matched.handler jp request = .ok (bv, bpe, dr) := by
    unfold routeBodyStep
    rw [hschemas]
    cases hb : schemas.body with
    | some sch =>
      obtain ⟨r, hr⟩ := parseBody_never_throws jp request
      simp only [hb, hr]
      exact ⟨_, _, _, rfl⟩
    | none =>
      simp only [hb]
      exact ⟨_, _, _, rfl⟩
  obtain ⟨bv, bpe, dr, hbody⟩ := hbody
  have hhandle : handle cfg.handlers cfg.validator jp request locals0 =
      .error ⟨.genErr validatorRequiredMsg, none⟩ := by
    simp only [handle, hmatch, hbody, hschemas, hval, validateInputs]
  simp only [fetchFn, fetchTry, hinit, hhandle, herrdef, Option.getD, defaultOnError]

/-- C7 witness route: declares a body schema. -/
def c7handler : Handler Unit :=
  ⟨"POST", "/z", fun _ => .ok ⟨200, .str "ok"⟩, none, some ⟨none, none, some ()⟩⟩

/-- C7 witness config: no validator, default error handler, no hooks. -/
def c7cfg : Config Unit := ⟨[c7handler], none, none, none, none⟩

/-- C7 witness request. -/
def c7req : Request := ⟨"POST", ⟨["", "z"], []⟩, .text "null"⟩

/-- C7 witness JSON oracle: parses everything to null. -/
def c7jp : JsonParse := fun _ => .ok .null

theorem c7_missing_validator_is_500_witness :
    validateInputs (none : Option (Validator Unit)) (some ⟨none, none, some ()⟩)
        ⟨.obj [], .obj [], .null⟩ none =
      .error (.genErr validatorRequiredMsg) ∧
    fetchFn c7cfg c7jp c7req =
      .ok ⟨500, .obj [("error", .str "Internal Server Error")]⟩ := by
  have h := c7_missing_validator_is_500 c7cfg c7jp c7req ⟨c7handler, []⟩
    ⟨none, none, some ()⟩ [] rfl rfl rfl rfl rfl
  exact ⟨h.1 ⟨.obj [], .obj [], .null⟩ none, h.2⟩

/-- C8 counterexample config: no routes, and a response hook that rewrites
the status to 999. -/
def c8cfg : Config Unit :=
  ⟨[], none, none, none, some (fun _ r => .ok ⟨999, r.body⟩)⟩

/-- C8 counterexample request: matches no route. -/
def c8req : Request := ⟨"GET", ⟨["", "missing"], []⟩, .noBody⟩

/-- C8 witness JSON oracle. -/
def c8jp : JsonParse := fun _ => .ok .null

/-- C8 is false as stated: in the no-route case the response hook IS
invoked (handle returns the synthesized 404 context, which is truthy), so
the fixed 404 response is not returned unmodified when a hook is
configured. -/
theorem c8_counterexample :
    fetchFn c8cfg c8jp c8req = .ok ⟨999, .str "Not Found"⟩ ∧
    fetchFn c8cfg c8jp c8req ≠ .ok ⟨404, .str "Not Found"⟩ := by
  constructor
  · rfl
  · intro h
    rw [show fetchFn c8cfg c8jp c8req = .ok ⟨999, .str "Not Found"⟩ from rfl] at h
    injection h with h
    injection h with h1 h2
    exact absurd h1 (by decide)

/-- C8 amended: dispatch always produces a context (the no-route case
synthesizes one next to the fixed 404 response), so whenever dispatch
returns normally and a response hook is configured the hook is invoked
with the final context and the dispatcher response, and its returned
response is the final response — including the no-route case; without a
configured hook the dispatcher response is final. -/
theorem c8_response_hook_always_runs {S : Type}
    (cfg : Config S) (jp : JsonParse) (request : Request) (locals0 : Locals)
    (rr : RouterResponse) (b : Bool)
    (hinit : initialLocalsStep cfg request = .ok locals0)
    (hhandle : handle cfg.handlers cfg.validator jp request locals0 = .ok (rr, b)) :
    (∀ f resp, cfg.onResponse = some f → f rr.context rr.response = .ok resp →
      fetchFn cfg jp request = .ok resp) ∧
    (cfg.onResponse = none → fetchFn cfg jp request = .ok rr.response) := by
  constructor
  · intro f resp hf hresp
    simp only [fetchFn, fetchTry, hinit, hhandle, hf, hresp]
  · intro hf
    simp only [fetchFn, fetchTry, hinit, hhandle, hf]

theorem c8_response_hook_always_runs_witness :
    fetchFn c8cfg c8jp c8req = .ok ⟨999, .str "Not Found"⟩ :=
  (c8_response_hook_always_runs c8cfg c8jp c8req []
      ⟨⟨404, .str "Not Found"⟩, notFoundContext c8req⟩ false rfl rfl).1
    (fun _ r => .ok ⟨999, r.body⟩) ⟨999, .str "Not Found"⟩ rfl rfl

/-- C9: the two framework-synthesized contexts.  When no route matches,
handle returns the fixed 404 with the synthesized context; when fetch
catches an error with no attached context, the error hook receives the
fallback context.  Both have empty raw params and query, undefined body,
empty locals (even when initial locals exist), and an input state with
ok true, although no validation ever ran. -/
theorem c9_synthesized_contexts {S : Type} :
    (∀ (routes : List (Handler S)) (validator : Option (Validator S))
        (jp : JsonParse) (request : Request) (initialLocals : Locals),
      matchRoutes routes request.method request.url = none →
      handle routes validator jp request initialLocals =
        .ok (⟨⟨404, .str "Not Found"⟩, notFoundContext request⟩, false) ∧
      (notFoundContext request).raw = ⟨.obj [], .obj [], .undef⟩ ∧
      (notFoundContext request).locals = [] ∧
      (notFoundContext request).input = .ok (.obj []) (.obj []) .undef) ∧
    (∀ (cfg : Config S) (jp : JsonParse) (request : Request)
        (onErr : JsErr → Context → Except Thrown Response) (e : Thrown),
      cfg.onError = some onErr →
      fetchTry cfg jp request = .error e →
      e.ctx = none →
      fetchFn cfg jp request = onErr e.err (fallbackContext request) ∧
      (fallbackContext request).raw = ⟨.obj [], .obj [], .undef⟩ ∧
      (fallbackContext request).locals = [] ∧
      (fallbackContext request).input = .ok (.obj []) (.obj []) .undef) := by
  constructor
  · intro routes validator jp request initialLocals hmatch
    refine ⟨?_, rfl, rfl, rfl⟩
    simp only [handle, hmatch]
  · intro cfg jp request onErr e honerr htry hctx
    refine ⟨?_, rfl, rfl, rfl⟩
    simp only [fetchFn, htry, honerr, hctx, Option.getD]

/-- C9 witness route: declares (empty) request schemas with no validator
configured, so dispatch throws with no attached context. -/
def c9handler : Handler Unit :=
  ⟨"GET", "/w", fun _ => .ok ⟨200, .str "ok"⟩, none, some ⟨none, none, none⟩⟩

/-- C9 witness error hook: echoes the raw query of the received context. -/
def c9onErr : JsErr → Context → Except Thrown Response :=
  fun _ c => .ok ⟨501, c.raw.query⟩

/-- C9 witness config. -/
def c9cfg : Config Unit := ⟨[c9handler], none, some c9onErr, none, none⟩

/-- C9 witness request. -/
def c9req : Request := ⟨"GET", ⟨["", "w"], []⟩, .noBody⟩

/-- C9 witness JSON oracle. -/
def c9jp : JsonParse := fun _ => .ok .null

theorem c9_synthesized_contexts_witness :
    handle ([] : List (Handler Unit)) none c9jp c9req [("seed", .num 7)] =
      .ok (⟨⟨404, .str "Not Found"⟩, notFoundContext c9req⟩, false) ∧
    fetchFn c9cfg c9jp c9req = .ok ⟨501, .obj []⟩ := by
  refine ⟨((c9_synthesized_contexts (S := Unit)).1 [] none c9jp c9req
    [("seed", .num 7)] rfl).1, ?_⟩
  have h := ((c9_synthesized_contexts (S := Unit)).2 c9cfg c9jp c9req c9onErr
    ⟨.genErr validatorRequiredMsg, none⟩ rfl rfl rfl).1
  exact h

/-- C10: parseBody always returns a result (never propagates a thrown
value); a read failure that threw a SyntaxError is returned as that
SyntaxError, any other thrown cause (for example a body stream read
failure) is replaced by a fresh SyntaxError with message Invalid JSON, and
a JSON.parse rejection of a non-empty text is returned as the thrown
SyntaxError itself. -/
theorem c10_parseBody_never_throws_classifies :
    (∀ (jp : JsonParse) (req : Request), ∃ r, parseBody jp req = .ok r) ∧
    (∀ (jp : JsonParse) (req : Request) (m : String),
      req.bodyStream = .failsWith (.synErr m) →
      parseBody jp req = .ok ⟨.undef, some ⟨m⟩⟩) ∧
    (∀ (jp : JsonParse) (req : Request) (m : String),
      req.bodyStream = .failsWith (.genErr m) →
      parseBody jp req = .ok ⟨.undef, some ⟨"Invalid JSON"⟩⟩) ∧
    (∀ (jp : JsonParse) (req : Request) (v : Val),
      req.bodyStream = .failsWith (.other v) →
      parseBody jp req = .ok ⟨.undef, some ⟨"Invalid JSON"⟩⟩) ∧
    (∀ (jp : JsonParse) (req : Request) (t : String) (e : SynErr),
      req.bodyStream = .text t → t ≠ "" → jp t = .error e →
      parseBody jp req = .ok ⟨.undef, some e⟩) := by
  refine ⟨parseBody_never_throws, ?_, ?_, ?_, ?_⟩
  · intro jp req m h
    obtain ⟨mth, u, bs⟩ := req
    simp only at h
    subst h
    rfl
  · intro jp req m h
    obtain ⟨mth, u, bs⟩ := req
    simp only at h
    subst h
    rfl
  · intro jp req v h
    obtain ⟨mth, u, bs⟩ := req
    simp only at h
    subst h
    rfl
  · intro jp req t e ht hne hjp
    obtain ⟨mth, u, bs⟩ := req
    simp only at ht
    subst ht
    obtain ⟨msg⟩ := e
    simp [parseBody, parseBodyAttempt, hne, hjp]

/-- C10 witness request whose body stream read throws a non-SyntaxError. -/
def c10reqIo : Request := ⟨"POST", ⟨["", "b"], []⟩, .failsWith (.other (.str "io failure"))⟩

/-- C10 witness request whose body stream read throws a SyntaxError. -/
def c10reqSyn : Request := ⟨"POST", ⟨["", "b"], []⟩, .failsWith (.synErr "bad token")⟩

/-- C10 witness JSON oracle. -/
def c10jp : JsonParse := fun _ => .ok .null

theorem c10_parseBody_never_throws_classifies_witness :
    parseBody c10jp c10reqIo = .ok ⟨.undef, some ⟨"Invalid JSON"⟩⟩ ∧
    parseBody c10jp c10reqSyn = .ok ⟨.undef, some ⟨"bad token"⟩⟩ :=
  ⟨c10_parseBody_never_throws_classifies.2.2.2.1 c10jp c10reqIo
      (.str "io failure") rfl,
    c10_parseBody_never_throws_classifies.2.1 c10jp c10reqSyn "bad token" rfl⟩

end Hecto
